import Mathlib

/-!
Verification of the aws-calculator-mcp pricing engine and estimate
assembly.  Each definition below is a shallow embedding of the
corresponding JavaScript function in the server source (index.js):
JS numbers are modelled as rationals, JS objects as inductive values,
and JS plain-object maps as association lists with overwrite-on-assign
semantics.  Remote HTTP responses are passed in as explicit data.
-/

namespace AwsCalc

/-! ## JavaScript value model

`JNum` is the result of JavaScript `Number(x)`: either an exact numeric
value or `NaN` (`nonNum`).  `Prim` is a primitive string or number.
`RVal` is a raw JSON-ish value as it appears in component defaults and
user inputs: a primitive, a plain object carrying no `value` key
(abstracted to a tag naming its contents), or `null`/`undefined`. -/

inductive JNum where
  | num (q : ℚ)
  | nonNum
deriving DecidableEq

/-- JavaScript `Number(x) || 0`: a non-numeric conversion result becomes 0. -/
def jnumOr0 : JNum → ℚ
  | .num q => q
  | .nonNum => 0

inductive Prim where
  | str (s : String)
  | num (q : ℚ)
deriving DecidableEq

inductive RVal where
  | prim (p : Prim)
  | obj (tag : String)
  | nullV
deriving DecidableEq

/-! ## Association-list model of JS object maps

JS `m[k] = v` overwrites in place (keeping insertion order) or appends.
Every map the server builds is constructed only through `updAssoc`, so
keys stay unique. -/

def updAssoc {α : Type} : List (String × α) → String → α → List (String × α)
  | [], k, v => [(k, v)]
  | e :: es, k, v => if e.1 = k then (k, v) :: es else e :: updAssoc es k v

/-! ## Unit conversion tables (source constants `FILE_SIZE_TO_GB`, `FREQ_TO_MONTH`) -/

def FILE_SIZE_TO_GB : List (String × ℚ) :=
  [("KB", 1 / (1024 * 1024)), ("MB", 1 / 1024), ("GB", 1), ("TB", 1024)]

def FREQ_TO_MONTH : List (String × ℚ) :=
  [("per second", 2592000), ("per minute", 43200), ("per hour", 720),
   ("per day", 30), ("per week", 30 / 7), ("per month", 1), ("per year", 1 / 12)]

/-! ## `normalizeValue(subType, raw)`

The raw value is either `null`, a primitive, an object with a `value`
key (and optional `unit`), or some other object (whose `Number`
conversion is `NaN`).  Mirrors the source line by line:
`raw == null → 0`; object with `value` key → convert by unit table when
the subtype and unit match, else the plain number; otherwise
`Number(raw) || 0`. -/

inductive RawCV where
  | nullV
  | prim (n : JNum)
  | record (v : JNum) (unit : Option String)
  | objNoValue
deriving DecidableEq

def lookupUnit (tbl : List (String × ℚ)) (unit : Option String) : Option ℚ :=
  match unit with
  | none => none
  | some u => tbl.lookup u

def normalizeValue (subType : String) (raw : RawCV) : ℚ :=
  match raw with
  | .nullV => 0
  | .record v unit =>
    let q := jnumOr0 v
    if subType = "fileSize" then
      match lookupUnit FILE_SIZE_TO_GB unit with
      | some c => q * c
      | none => q
    else if subType = "frequency" then
      match lookupUnit FREQ_TO_MONTH unit with
      | some c => q * c
      | none => q
    else q
  | .prim n => jnumOr0 n
  | .objNoValue => 0

/-! ## Tiered pricing (`resolveAllComponents` tier resolution and the
`tieredPricingMath` operator of `executeMathsSection`)

A resolved tier is `{start, end, price}` where `end = -1` denotes an
unbounded tier (the source maps it to `Infinity`, so
`min(remaining, Infinity) = remaining`).  `tEnd` embeds the source
field `end`. -/

structure Tier where
  start : ℚ
  tEnd : ℚ
  price : ℚ
deriving DecidableEq

structure RawTier where
  startOfTier : ℚ
  endOfTier : ℚ
  meteredUnit : String
deriving DecidableEq

/-- Tier resolution in `resolveAllComponents`: each raw tier keeps its
bounds and gets `priceMap[t.meteredUnit] ?? 0` as price. -/
def resolveTiers (priceMap : List (String × ℚ)) (tiers : List RawTier) : List Tier :=
  tiers.map (fun t => ⟨t.startOfTier, t.endOfTier, (priceMap.lookup t.meteredUnit).getD 0⟩)

/-- The quantity charged at one tier: `min(remaining, tierEnd - tierStart)`
with `end = -1` read as an unbounded tier. -/
def tierQty (remaining : ℚ) (t : Tier) : ℚ :=
  if t.tEnd = -1 then remaining else min remaining (t.tEnd - t.start)

/-- The `tieredPricingMath` loop: walk tiers in order, break as soon as
`remaining <= 0`, charge `tierQty` units at each tier's price. -/
def tieredPricingMath : ℚ → List Tier → ℚ
  | _, [] => 0
  | remaining, t :: ts =>
    if remaining ≤ 0 then 0
    else tierQty remaining t * t.price + tieredPricingMath (remaining - tierQty remaining t) ts

/-- The specification's description of the same computation: the
accumulated sum of `min(remaining, end - start) * price` over all tiers,
`remaining` reduced by the charged amount at each step, with no early
exit. -/
def tierChargeSum : ℚ → List Tier → ℚ
  | _, [] => 0
  | remaining, t :: ts =>
    tierQty remaining t * t.price + tierChargeSum (remaining - tierQty remaining t) ts

/-- A well-formed tier is unbounded or has its start at or below its end. -/
def wfTier (t : Tier) : Prop := t.tEnd = -1 ∨ t.start ≤ t.tEnd

instance : DecidablePred wfTier := fun t =>
  inferInstanceAs (Decidable (t.tEnd = -1 ∨ t.start ≤ t.tEnd))

/-! ## `basicMaths` operator of `executeMathsSection`

The loop starts from `operands[0] ?? 0` and folds the remaining
operands left-to-right; a division step with a zero divisor yields 0
rather than failing. -/

def basicStep (operation : String) (result x : ℚ) : ℚ :=
  if operation = "multiplication" then result * x
  else if operation = "addition" then result + x
  else if operation = "subtraction" then result - x
  else if operation = "division" then (if x ≠ 0 then result / x else 0)
  else result

def basicLoop (operation : String) : ℚ → List ℚ → ℚ
  | acc, [] => acc
  | acc, x :: xs => basicLoop operation (basicStep operation acc x) xs

def basicMaths (operation : String) (operands : List ℚ) : ℚ :=
  basicLoop operation (operands.headD 0) operands.tail

/-! ## Input fields and `resolveValue`

`InputField` is the extracted schema record produced by `extractInputs`
(only the attributes consumed by `resolveValue`, `buildComponentValue`
and `buildCalcComponents` are carried).  An option is a
`{label, value}` pair of strings, as built by the extractor.  An empty
`id` models a JS-falsy id (such nodes are skipped when indexing). -/

structure ChoiceOpt where
  label : String
  value : String
deriving DecidableEq

structure InputField where
  id : String
  label : String
  type : String
  description : String
  default : RVal
  unit : Option String
  options : Option (List ChoiceOpt)
  defaultUnit : Option String
deriving DecidableEq

/-- `resolveValue(input, rawValue)`: when the field has options and the
raw value is a string, the first option whose label or value equals it
supplies the canonical value; otherwise the raw value passes through. -/
def resolveValue (input : InputField) (rawValue : RVal) : RVal :=
  match input.options, rawValue with
  | some opts, .prim (.str s) =>
    match opts.find? (fun o => o.label = s || o.value = s) with
    | some o => .prim (.str o.value)
    | none => rawValue
  | _, _ => rawValue

/-! ## `buildComponentValue` and `buildCalcComponents`

A stored calculation-component value (`CCVal`) is an object with a
`value` key (and optional spread-preserved `unit`), a plain object (the
`pricingStrategy` pass-through), or a bare value (the
`pricingStrategy` branch that stores `v.value` directly).  A user input
(`UserVal`) is either an object already in `{value, unit?}` form
(`wrapped`) or any other value (`raw`). -/

inductive CCVal where
  | valRec (value : RVal) (unit : Option String)
  | plainObj (tag : String)
  | bare (v : RVal)
deriving DecidableEq

inductive UserVal where
  | wrapped (value : RVal) (unit : Option String)
  | raw (v : RVal)
deriving DecidableEq

/-- `buildComponentValue(input, value)`: no field → `{value}`;
`pricingStrategy` object values pass through unwrapped; sized fields
with a default unit get `{value, unit}`; otherwise `{value}`. -/
def buildComponentValue (input : Option InputField) (value : RVal) : CCVal :=
  match input, value with
  | none, v => .valRec v none
  | some inp, .obj tag =>
    if inp.type = "pricingStrategy" then .plainObj tag
    else if (inp.type = "frequency" ∨ inp.type = "fileSize") ∧ inp.defaultUnit.isSome then
      .valRec (.obj tag) inp.defaultUnit
    else .valRec (.obj tag) none
  | some inp, v =>
    if (inp.type = "frequency" ∨ inp.type = "fileSize") ∧ inp.defaultUnit.isSome then
      .valRec v inp.defaultUnit
    else .valRec v none

/-- A default is meaningful when it is neither `null` nor the empty
string (`inp.default != null && inp.default !== ""`). -/
def meaningfulDefault (d : RVal) : Bool :=
  d ≠ RVal.nullV && d ≠ RVal.prim (.str "")

/-- The field-id index: `inputMap[inp.id] = inp` for every field with a
truthy id (later fields overwrite earlier ones). -/
def inputMapOf (inputs : List InputField) : List (String × InputField) :=
  inputs.foldl (fun m i => if i.id ≠ "" then updAssoc m i.id i else m) []

/-- Seeding pass shared by both branches of `buildCalcComponents`:
every field with a truthy id and a meaningful default contributes
`buildComponentValue(inp, inp.default)`. -/
def seedDefaults (inputs : List InputField) : List (String × CCVal) :=
  inputs.foldl
    (fun m i =>
      if i.id ≠ "" ∧ meaningfulDefault i.default then
        updAssoc m i.id (buildComponentValue (some i) i.default)
      else m) []

/-- One user entry of the overlay loop in `buildCalcComponents`. -/
def userEntryVal (inp : Option InputField) (v : UserVal) : CCVal :=
  let isPS : Bool := match inp with
    | some i => i.type = "pricingStrategy"
    | none => false
  match v with
  | .wrapped value unit =>
    if isPS then .bare value
    else
      .valRec (match inp with | some i => resolveValue i value | none => value) unit
  | .raw (.obj tag) =>
    if isPS then .plainObj tag
    else buildComponentValue inp (.obj tag)
  | .raw rv =>
    buildComponentValue inp (match inp with | some i => resolveValue i rv | none => rv)

/-- `buildCalcComponents(inputs, userInputs)`: with no user inputs emit
the meaningful defaults; otherwise seed the defaults and then overlay
the user entries in order. -/
def buildCalcComponents (inputs : List InputField) (user : List (String × UserVal)) :
    List (String × CCVal) :=
  if user = [] then seedDefaults inputs
  else
    let im := inputMapOf inputs
    user.foldl (fun m e => updAssoc m e.1 (userEntryVal (im.lookup e.1) e.2)) (seedDefaults inputs)

/-! ## Region table (source constant `REGION_NAMES`) and the
`calculateServiceCost` region resolution -/

def REGION_NAMES : List (String × String) :=
  [("us-east-1", "US East (N. Virginia)"),
   ("us-east-2", "US East (Ohio)"),
   ("us-west-1", "US West (N. California)"),
   ("us-west-2", "US West (Oregon)"),
   ("af-south-1", "Africa (Cape Town)"),
   ("ap-east-1", "Asia Pacific (Hong Kong)"),
   ("ap-south-1", "Asia Pacific (Mumbai)"),
   ("ap-south-2", "Asia Pacific (Hyderabad)"),
   ("ap-southeast-1", "Asia Pacific (Singapore)"),
   ("ap-southeast-2", "Asia Pacific (Sydney)"),
   ("ap-southeast-3", "Asia Pacific (Jakarta)"),
   ("ap-southeast-4", "Asia Pacific (Melbourne)"),
   ("ap-southeast-5", "Asia Pacific (Malaysia)"),
   ("ap-southeast-7", "Asia Pacific (Thailand)"),
   ("ap-northeast-1", "Asia Pacific (Tokyo)"),
   ("ap-northeast-2", "Asia Pacific (Seoul)"),
   ("ap-northeast-3", "Asia Pacific (Osaka)"),
   ("ca-central-1", "Canada (Central)"),
   ("ca-west-1", "Canada West (Calgary)"),
   ("eu-central-1", "EU (Frankfurt)"),
   ("eu-central-2", "EU (Zurich)"),
   ("eu-west-1", "EU (Ireland)"),
   ("eu-west-2", "EU (London)"),
   ("eu-west-3", "EU (Paris)"),
   ("eu-south-1", "EU (Milan)"),
   ("eu-south-2", "EU (Spain)"),
   ("eu-north-1", "EU (Stockholm)"),
   ("il-central-1", "Israel (Tel Aviv)"),
   ("me-south-1", "Middle East (Bahrain)"),
   ("me-central-1", "Middle East (UAE)"),
   ("sa-east-1", "South America (Sao Paulo)"),
   ("mx-central-1", "Mexico (Central)")]

/-- `calculateServiceCost` line `REGION_NAMES[region] || "US East (N. Virginia)"`:
the pricing-table region name for a region code. -/
def pricingRegionName (region : String) : String :=
  (REGION_NAMES.lookup region).getD "US East (N. Virginia)"

/-! ## `create_estimate` document assembly

The tool first resolves every service against the remote definition
store and the cost calculator; those remote results enter the model as
explicit data (`DefFetch`, the `calcResult` field).  `groups` and
`metaData` of the payload carry no information the verified invariants
touch and are omitted from the embedded document. -/

structure Cost where
  monthly : ℚ
  upfront : ℚ
deriving DecidableEq

/-- A sub-service entry as `create_estimate` constructs it: fetched
fields on success, the placeholder on a failed fetch.  Both branches of
the source hard-code `serviceCost: { monthly: 0, upfront: 0 }`. -/
structure SubEntry where
  serviceCode : String
  region : String
  estimateFor : String
  version : String
  description : Option String
  calculationComponents : List (String × CCVal)
  serviceCost : Cost
deriving DecidableEq

inductive SubDefFetch where
  | ok (estimateFor : Option String) (version : Option String) (inputs : List InputField)
  | failed
deriving DecidableEq

structure SubRef where
  serviceCode : String
  fetch : SubDefFetch
deriving DecidableEq

def mkSubEntry (region : String) (sub : SubRef) : SubEntry :=
  match sub.fetch with
  | .ok ef ver inputs =>
    { serviceCode := sub.serviceCode, region := region,
      estimateFor := ef.getD sub.serviceCode, version := ver.getD "0.0.1",
      description := none,
      calculationComponents := buildCalcComponents inputs [],
      serviceCost := ⟨0, 0⟩ }
  | .failed =>
    { serviceCode := sub.serviceCode, region := region,
      estimateFor := sub.serviceCode, version := "0.0.1",
      description := none,
      calculationComponents := [],
      serviceCost := ⟨0, 0⟩ }

structure ServiceEntry where
  version : String
  serviceCode : String
  estimateFor : Option String
  region : String
  description : Option String
  calculationComponents : List (String × CCVal)
  serviceCost : Cost
  serviceName : String
  regionName : String
  configSummary : String
  templateId : Option String
  subServices : Option (List SubEntry)
deriving DecidableEq

/-- One element of the `services` argument of the tool (zod defaults
already applied: `region`, `monthlyCost`, `upfrontCost`). -/
structure SvcInput where
  serviceCode : String
  region : String
  regionName : Option String
  serviceName : String
  description : Option String
  monthlyCost : ℚ
  upfrontCost : ℚ
  configSummary : Option String
  calculationComponents : Option (List (String × UserVal))
  templateId : Option String
  group : Option String
deriving DecidableEq

/-- The outcome of `fetchJSON(API.serviceDef(code))` for one service. -/
inductive DefFetch where
  | ok (version : Option String) (estimateForField : Option String)
      (defServiceCode : Option String) (firstTemplateId : Option String)
      (inputs : List InputField) (subs : List SubRef)
  | failed
deriving DecidableEq

/-- Remote results consumed while assembling one service entry: the
definition fetch, the `calculateServiceCost` result (`none` models its
`null` on failure), and the generated UUID suffix of the service key. -/
structure SvcRemote where
  defFetch : DefFetch
  calcResult : Option (ℚ × ℚ)
  uuid : String
deriving DecidableEq

/-- The fallback wrapping used when the definition fetch fails:
`cc[k] = "value" in v ? v : { value: v }`. -/
def wrapFallback : UserVal → CCVal
  | .wrapped v u => .valRec v u
  | .raw v => .valRec v none

/-- Cost resolution: a zero `monthlyCost` triggers auto-calculation;
`upfrontCost` is only replaced by the calculated value when it is 0. -/
def resolveCosts (svc : SvcInput) (cres : Option (ℚ × ℚ)) : ℚ × ℚ :=
  if svc.monthlyCost = 0 then
    match cres with
    | some (m, u) => (m, if svc.upfrontCost = 0 then u else svc.upfrontCost)
    | none => (0, svc.upfrontCost)
  else (svc.monthlyCost, svc.upfrontCost)

/-- Assembly of one top-level `ServiceEntry` from the tool argument and
the remote results, mirroring the per-service body of the
`create_estimate` loop. -/
def buildServiceEntry (svc : SvcInput) (r : SvcRemote) : ServiceEntry :=
  match r.defFetch with
  | .ok ver ef defCode tmpl inputs subs =>
    let costs := resolveCosts svc r.calcResult
    { version := ver.getD "0.0.1",
      serviceCode := svc.serviceCode,
      estimateFor := ef <|> defCode,
      region := svc.region,
      description := svc.description,
      calculationComponents := buildCalcComponents inputs (svc.calculationComponents.getD []),
      serviceCost := ⟨costs.1, costs.2⟩,
      serviceName := svc.serviceName,
      regionName := (svc.regionName <|> REGION_NAMES.lookup svc.region).getD svc.region,
      configSummary := svc.configSummary.getD "",
      templateId := svc.templateId <|> tmpl,
      subServices := if subs = [] then none else some (subs.map (mkSubEntry svc.region)) }
  | .failed =>
    let costs := resolveCosts svc r.calcResult
    { version := "0.0.1",
      serviceCode := svc.serviceCode,
      estimateFor := some svc.serviceCode,
      region := svc.region,
      description := svc.description,
      calculationComponents :=
        (svc.calculationComponents.getD []).foldl
          (fun m e => updAssoc m e.1 (wrapFallback e.2)) [],
      serviceCost := ⟨costs.1, costs.2⟩,
      serviceName := svc.serviceName,
      regionName := (svc.regionName <|> REGION_NAMES.lookup svc.region).getD svc.region,
      configSummary := svc.configSummary.getD "",
      templateId := svc.templateId,
      subServices := none }

structure Payload where
  name : String
  services : List (String × ServiceEntry)
  groupSubtotal : Cost
  totalCost : Cost
deriving DecidableEq

/-- One iteration of the `create_estimate` service loop: build the
entry under key `{serviceCode}-{uuid}` and add its resolved costs to
the running totals. -/
def createStep (acc : List (String × ServiceEntry) × ℚ × ℚ)
    (it : SvcInput × SvcRemote) : List (String × ServiceEntry) × ℚ × ℚ :=
  let entry := buildServiceEntry it.1 it.2
  (acc.1 ++ [(it.1.serviceCode ++ "-" ++ it.2.uuid, entry)],
   acc.2.1 + entry.serviceCost.monthly, acc.2.2 + entry.serviceCost.upfront)

/-- The accumulation loop of `create_estimate`, storing the summed
totals as both `groupSubtotal` and `totalCost`. -/
def createEstimatePayload (name : String) (items : List (SvcInput × SvcRemote)) : Payload :=
  let acc := items.foldl createStep ([], 0, 0)
  { name := name, services := acc.1,
    groupSubtotal := ⟨acc.2.1, acc.2.2⟩, totalCost := ⟨acc.2.1, acc.2.2⟩ }

/-! ## The save / retry protocol of `create_estimate`

A response from the save store enters the model as data: its `ok` flag
(2xx), status, status text, body text, and the result of
`JSON.parse` applied to the body (`parsed`, with `bodyObj` the parse of
the inner `body` string).  `savePhase` mirrors the tail of
`create_estimate`: POST, on failure strip every `calculationComponents`
and POST once more, then parse whichever response survived. -/

structure BodyObj where
  savedKey : Option String
deriving DecidableEq

structure ParsedTop where
  statusCode : Int
  body : Option String
  bodyObj : Option BodyObj
deriving DecidableEq

structure SaveResp where
  ok : Bool
  status : Nat
  statusText : String
  text : String
  parsed : Option ParsedTop
deriving DecidableEq

inductive SaveOutcome where
  | saveError (status1 : Nat) (statusText1 : String) (body1 : String)
      (status2 : Nat) (body2 : String)
  | parseError (text : String)
  | shapeError (text : String)
  | noKeyError
  | success (link : String) (warnings : List String)
deriving DecidableEq

def isSuccessOutcome : SaveOutcome → Bool
  | .success _ _ => true
  | _ => false

/-- Strip `calculationComponents` from every top-level service and every
sub-service (the fallback mutation before the retry POST). -/
def stripPayload (p : Payload) : Payload :=
  { p with services := p.services.map (fun e =>
      (e.1, { e.2 with
        calculationComponents := [],
        subServices := e.2.subServices.map (fun subs =>
          subs.map (fun s => { s with calculationComponents := [] })) })) }

/-- The names recorded while stripping: every top-level service whose
`calculationComponents` was non-empty. -/
def strippedNames (p : Payload) : List String :=
  (p.services.filter (fun e => e.2.calculationComponents ≠ [])).map (fun e => e.2.serviceName)

/-- The warnings attached after a successful retry: the original status
and truncated body, the fix hint, and (when any) the affected services. -/
def saveWarnings (status1 : Nat) (text1 : String) (names : List String) : List String :=
  ["calculationComponents were rejected by the API (" ++ toString status1 ++ ": " ++
     text1.take 200 ++ "). The estimate was saved without detailed configurations.",
   "To fix: use get_service_schema to verify field IDs and option values, then recreate with corrected calculationComponents."] ++
  (if names = [] then [] else ["Affected services: " ++ String.intercalate ", " names])

/-- The response-parsing tail shared by both paths: `JSON.parse`, the
`statusCode == 201 && body` shape check, the inner parse, and the
`savedKey` check, ending in the shareable link. -/
def finishSave (resp : SaveResp) (warnings : List String) : SaveOutcome :=
  match resp.parsed with
  | none => .parseError resp.text
  | some pt =>
    if pt.statusCode ≠ 201 ∨ pt.body.getD "" = "" then .shapeError resp.text
    else
      match pt.bodyObj with
      | none => .parseError resp.text
      | some b =>
        match b.savedKey with
        | none => .noKeyError
        | some k =>
          if k = "" then .noKeyError
          else .success ("https://calculator.aws/#/estimate?id=" ++ k) warnings

structure SaveTrace where
  posts : List Payload
  outcome : SaveOutcome
deriving DecidableEq

/-- The save phase of `create_estimate`.  `r1` is the store's response
to the assembled payload, `r2` its response to the stripped payload
(consulted only when the first POST failed). -/
def savePhase (payload : Payload) (r1 r2 : SaveResp) : SaveTrace :=
  if r1.ok then ⟨[payload], finishSave r1 []⟩
  else
    let names := strippedNames payload
    let p2 := stripPayload payload
    if r2.ok then
      ⟨[payload, p2], finishSave r2 (saveWarnings r1.status r1.text names)⟩
    else
      ⟨[payload, p2], .saveError r1.status r1.statusText r1.text r2.status r2.text⟩

/-! ## `search_services` -/

structure ManifestService where
  name : String
  serviceCode : String
  slug : String
  regions : List String
  searchKeywords : List String
deriving DecidableEq

structure SearchResult where
  name : String
  serviceCode : String
  slug : Option String
  regions : Nat
deriving DecidableEq

/-- JS `haystack.includes(needle)`: substring containment. -/
def hasInfix (hay needle : List Char) : Bool :=
  needle.isPrefixOf hay ||
    match hay with
    | [] => false
    | _ :: t => hasInfix t needle

/-- JS `toLowerCase()`, character by character. -/
def lowerStr (s : String) : String := ⟨s.data.map Char.toLower⟩

/-- The search haystack: lowercased concatenation of name, service code
and the space-joined keywords. -/
def serviceHaystack (s : ManifestService) : String :=
  lowerStr (s.name ++ " " ++ s.serviceCode ++ " " ++ String.intercalate " " s.searchKeywords)

def searchMatches (query : String) (s : ManifestService) : Bool :=
  hasInfix (serviceHaystack s).toList (lowerStr query).toList

def searchProject (s : ManifestService) : SearchResult :=
  { name := s.name.trim, serviceCode := s.serviceCode,
    slug := if s.slug = "" then none else some s.slug,
    regions := s.regions.length }

/-- The body of the `search_services` tool: filter the manifest in
order, keep the first 15 matches, project each. -/
def search_services (manifest : List ManifestService) (query : String) : List SearchResult :=
  ((manifest.filter (searchMatches query)).take 15).map searchProject

/-! ## `load_estimate` id extraction

The source runs `estimateId.match(/id=([a-zA-Z0-9-]+)/)` and falls back
to the raw input when there is no match.  `findIdMatch` is that regex
search: scan left to right for the literal `id=` followed by at least
one character of the class, capturing the maximal such run. -/

def idChar (c : Char) : Bool :=
  c.isAlpha || c.isDigit || c = '-'

def findIdMatch : List Char → Option (List Char)
  | [] => none
  | c :: cs =>
    if c = 'i' ∧ cs.take 2 = ['d', '='] then
      let tok := (cs.drop 2).takeWhile idChar
      if tok = [] then findIdMatch cs else some tok
    else findIdMatch cs

def extractEstimateId (s : List Char) : List Char :=
  (findIdMatch s).getD s

/-! ## Concrete fixtures used by the tiered-pricing scenario -/

def s3StorageTiers : List RawTier :=
  [⟨0, 51200, "TimedStorage-ByteHrs"⟩,
   ⟨51201, 512000, "TimedStorage-ByteHrs-Tier2"⟩,
   ⟨512001, -1, "TimedStorage-ByteHrs-Tier3"⟩]

def s3PriceMap : List (String × ℚ) :=
  [("TimedStorage-ByteHrs", 23 / 1000),
   ("TimedStorage-ByteHrs-Tier2", 22 / 1000),
   ("TimedStorage-ByteHrs-Tier3", 21 / 1000)]

/-! ## Option-list distinctness and a colliding fixture

`resolveValue` takes the first option whose label or value equals the
supplied string, so canonical resolution of every option needs the
labels and values of distinct options not to collide. -/

def optsDistinct (opts : List ChoiceOpt) : Prop :=
  List.Pairwise
    (fun a b => a.label ≠ b.label ∧ a.value ≠ b.value ∧
      a.label ≠ b.value ∧ a.value ≠ b.label) opts

instance : DecidablePred optsDistinct := fun opts => by
  unfold optsDistinct
  infer_instance

/-- A dropdown field whose second option's label collides with the
first option's value. -/
def dupOptionsField : InputField :=
  { id := "storageClass", label := "Storage class", type := "dropdown",
    description := "", default := .nullV, unit := none,
    options := some [⟨"A", "B"⟩, ⟨"B", "C"⟩], defaultUnit := none }

/-! ## Fixtures for the default-merge property -/

def demoInputs : List InputField :=
  [{ id := "a", label := "A", type := "numericInput", description := "",
     default := .prim (.num 1), unit := none, options := none, defaultUnit := none },
   { id := "b", label := "B", type := "numericInput", description := "",
     default := .prim (.num 2), unit := none, options := none, defaultUnit := none }]

def demoUser : List (String × UserVal) :=
  [("a", .raw (.prim (.num 5)))]

/-! ## Fixtures for the estimate-assembly invariants -/

def demoSvcInput : SvcInput :=
  { serviceCode := "amazonS3", region := "us-east-1", regionName := none,
    serviceName := "Amazon S3", description := none,
    monthlyCost := 5, upfrontCost := 0, configSummary := none,
    calculationComponents := none, templateId := none, group := none }

def demoRemote : SvcRemote :=
  { defFetch := .ok (some "1.0.0") none (some "amazonS3") (some "t1") []
      [⟨"s3Sub", .failed⟩],
    calcResult := none, uuid := "u1" }

/-! ## Fixtures and shape predicates for the save protocol -/

/-- A save response whose 2xx body parses to `statusCode` 201 with a
`body` string whose parse carries a non-empty `savedKey`. -/
def wellFormedSave (r : SaveResp) : Bool :=
  match r.parsed with
  | none => false
  | some pt =>
    pt.statusCode == 201 && pt.body.getD "" != "" &&
      (match pt.bodyObj with
       | none => false
       | some b =>
         match b.savedKey with
         | none => false
         | some k => k != "")

/-- The `savedKey` extracted from a parsed save response (empty when
anything along the path is missing). -/
def savedKeyOf (r : SaveResp) : String :=
  match r.parsed with
  | some pt =>
    match pt.bodyObj with
    | some b => b.savedKey.getD ""
    | none => ""
  | none => ""

def isSaveErrorOutcome : SaveOutcome → Bool
  | .saveError _ _ _ _ _ => true
  | _ => false

def demoPayload : Payload := createEstimatePayload "demo" [(demoSvcInput, demoRemote)]

def failResp : SaveResp :=
  { ok := false, status := 500, statusText := "Internal Server Error",
    text := "err-body", parsed := none }

/-- A 2xx response whose body does not carry the expected
`statusCode 201` shape. -/
def malformedOkResp : SaveResp :=
  { ok := true, status := 200, statusText := "OK", text := "null-shape",
    parsed := some { statusCode := 200, body := none, bodyObj := none } }

def goodResp : SaveResp :=
  { ok := true, status := 200, statusText := "OK", text := "ok-body",
    parsed := some { statusCode := 201, body := some "inner",
                     bodyObj := some { savedKey := some "abc123" } } }

/-! ## Fixture manifest for the search operation -/

def demoManifest : List ManifestService :=
  [{ name := " Amazon EC2 ", serviceCode := "eC2Next", slug := "ec2",
     regions := ["us-east-1", "eu-west-1"], searchKeywords := ["compute", "vm"] },
   { name := "Amazon S3", serviceCode := "amazonS3", slug := "",
     regions := ["us-east-1"], searchKeywords := ["storage"] }]

/-! # Theorems -/

/-! ## C1: tieredPricingMath -/

theorem tierQty_le (q : ℚ) (t : Tier) : tierQty q t ≤ q := by
  unfold tierQty
  split
  · exact le_refl q
  · exact min_le_left _ _

theorem tierQty_zero (t : Tier) (hw : wfTier t) : tierQty 0 t = 0 := by
  unfold tierQty
  by_cases he : t.tEnd = -1
  · simp [he]
  · rcases hw with h | h
    · exact absurd h he
    · rw [if_neg he]
      exact min_eq_left (by linarith)

theorem tierChargeSum_zero (ts : List Tier) (hw : ∀ t ∈ ts, wfTier t) :
    tierChargeSum 0 ts = 0 := by
  induction ts with
  | nil => rfl
  | cons t ts ih =>
    have hwt := hw t (List.mem_cons_self t ts)
    have h0 : tierQty 0 t = 0 := tierQty_zero t hwt
    rw [tierChargeSum, h0]
    simp [ih fun u hu => hw u (List.mem_cons_of_mem t hu)]

/-- C1: for every `tieredPricingMath` evaluation over a nonnegative
quantity and well-formed tiers, the assigned value is the accumulated
sum of `min(remaining, end - start) * price` per tier (with `end = -1`
unbounded, `remaining` reduced by the charged amount at each tier); and
for quantity 60000 against the S3 tier table the result is exactly
`51200 * 0.023 + 8800 * 0.022 = 1371.20`. -/
theorem tieredPricingMath_correct :
    (∀ (q : ℚ) (ts : List Tier), 0 ≤ q → (∀ t ∈ ts, wfTier t) →
      tieredPricingMath q ts = tierChargeSum q ts) ∧
    tieredPricingMath 60000 (resolveTiers s3PriceMap s3StorageTiers)
      = 51200 * (23 / 1000 : ℚ) + 8800 * (22 / 1000) ∧
    (51200 * (23 / 1000 : ℚ) + 8800 * (22 / 1000) = 1371.2) := by
  refine ⟨?_,
    by simp [tieredPricingMath, resolveTiers, s3StorageTiers, s3PriceMap,
         tierQty, List.lookup, min_def]
       norm_num, by norm_num⟩
  intro q ts
  induction ts generalizing q with
  | nil => intro _ _; rfl
  | cons t ts ih =>
    intro hq hw
    by_cases hq0 : q ≤ 0
    · have hq' : q = 0 := le_antisymm hq0 hq
      subst hq'
      rw [tieredPricingMath, if_pos le_rfl, tierChargeSum_zero _ hw]
    · rw [tieredPricingMath, if_neg hq0, tierChargeSum,
        ih _ (by have := tierQty_le q t; linarith)
          (fun u hu => hw u (List.mem_cons_of_mem t hu))]

/-- Witness for C1 at the concrete S3 scenario input. -/
theorem tieredPricingMath_correct_witness :
    tieredPricingMath 60000 (resolveTiers s3PriceMap s3StorageTiers)
      = tierChargeSum 60000 (resolveTiers s3PriceMap s3StorageTiers) :=
  tieredPricingMath_correct.1 60000 _ (by norm_num) (by decide)

/-! ## C2: normalizeValue -/

/-- C2: `normalizeValue` projects a raw component value by subtype —
`fileSize` scales by the gigabyte table, `frequency` by the per-month
table, any other subtype yields the plain numeric value, and a
missing or non-numeric raw value yields 0; consequently 1 GB, 1024 MB
and 1/1024 TB normalize to the same scalar. -/
theorem normalizeValue_projection :
    (∀ q : ℚ,
      normalizeValue "fileSize" (.record (.num q) (some "KB")) = q * (1 / 2 ^ 20) ∧
      normalizeValue "fileSize" (.record (.num q) (some "MB")) = q * (1 / 2 ^ 10) ∧
      normalizeValue "fileSize" (.record (.num q) (some "GB")) = q * 1 ∧
      normalizeValue "fileSize" (.record (.num q) (some "TB")) = q * 1024 ∧
      normalizeValue "frequency" (.record (.num q) (some "per second")) = q * 2592000 ∧
      normalizeValue "frequency" (.record (.num q) (some "per minute")) = q * 43200 ∧
      normalizeValue "frequency" (.record (.num q) (some "per hour")) = q * 720 ∧
      normalizeValue "frequency" (.record (.num q) (some "per day")) = q * 30 ∧
      normalizeValue "frequency" (.record (.num q) (some "per week")) = q * (30 / 7) ∧
      normalizeValue "frequency" (.record (.num q) (some "per month")) = q * 1 ∧
      normalizeValue "frequency" (.record (.num q) (some "per year")) = q * (1 / 12)) ∧
    (∀ st : String, st ≠ "fileSize" → st ≠ "frequency" →
      ∀ (v : JNum) (u : Option String),
        normalizeValue st (.record v u) = jnumOr0 v ∧
        normalizeValue st (.prim v) = jnumOr0 v) ∧
    (∀ st : String,
      normalizeValue st .nullV = 0 ∧
      normalizeValue st (.prim .nonNum) = 0 ∧
      ∀ u, normalizeValue st (.record .nonNum u) = 0) ∧
    (normalizeValue "fileSize" (.record (.num 1) (some "GB"))
        = normalizeValue "fileSize" (.record (.num 1024) (some "MB")) ∧
      normalizeValue "fileSize" (.record (.num 1024) (some "MB"))
        = normalizeValue "fileSize" (.record (.num (1 / 1024)) (some "TB"))) := by
  refine ⟨?_, ?_, ?_, ?_⟩
  · intro q
    refine ⟨?_, ?_, ?_, ?_, ?_, ?_, ?_, ?_, ?_, ?_, ?_⟩ <;>
      simp [normalizeValue, lookupUnit, FILE_SIZE_TO_GB, FREQ_TO_MONTH,
        List.lookup, jnumOr0] <;> norm_num
  · intro st h1 h2 v u
    constructor <;> simp [normalizeValue, h1, h2]
  · intro st
    refine ⟨rfl, rfl, ?_⟩
    intro u
    simp only [normalizeValue, jnumOr0]
    by_cases h1 : st = "fileSize"
    · rcases hlk : lookupUnit FILE_SIZE_TO_GB u with _ | c <;> simp [h1, hlk]
    · by_cases h2 : st = "frequency"
      · rcases hlk : lookupUnit FREQ_TO_MONTH u with _ | c <;> simp [h1, h2, hlk]
      · simp [h1, h2]
  · constructor <;>
      simp [normalizeValue, lookupUnit, FILE_SIZE_TO_GB, List.lookup, jnumOr0]

/-- Witness for C2 at a concrete non-sized subtype. -/
theorem normalizeValue_projection_witness :
    normalizeValue "numericInput" (.record (.num 7) (some "GB")) = jnumOr0 (.num 7) :=
  (normalizeValue_projection.2.1 "numericInput" (by decide) (by decide) (.num 7) (some "GB")).1

/-! ## C3: basicMaths -/

theorem basicLoop_eq_foldl (operation : String) (xs : List ℚ) :
    ∀ acc, basicLoop operation acc xs = xs.foldl (basicStep operation) acc := by
  induction xs with
  | nil => intro acc; rfl
  | cons x xs ih => intro acc; rw [basicLoop, List.foldl_cons, ih]

theorem foldl_congr_fun {α β : Type} (f g : α → β → α) (xs : List β)
    (h : ∀ a b, f a b = g a b) : ∀ a, xs.foldl f a = xs.foldl g a := by
  induction xs with
  | nil => intro a; rfl
  | cons x xs ih => intro a; rw [List.foldl_cons, List.foldl_cons, h, ih]

/-- C3: each `basicMaths` operation folds the operand values
left-to-right from the first operand, a division step with zero
divisor yields 0 (so evaluation is total), and in particular
`[a, 0]` under division evaluates to 0. -/
theorem basicMaths_fold :
    (∀ (a : ℚ) (xs : List ℚ),
      basicMaths "multiplication" (a :: xs) = xs.foldl (fun r x => r * x) a ∧
      basicMaths "addition" (a :: xs) = xs.foldl (fun r x => r + x) a ∧
      basicMaths "subtraction" (a :: xs) = xs.foldl (fun r x => r - x) a ∧
      basicMaths "division" (a :: xs)
        = xs.foldl (fun r x => if x = 0 then 0 else r / x) a) ∧
    (∀ a : ℚ, basicMaths "division" [a, 0] = 0) := by
  constructor
  · intro a xs
    refine ⟨?_, ?_, ?_, ?_⟩ <;>
      · rw [basicMaths, List.headD_cons, List.tail_cons, basicLoop_eq_foldl]
        refine foldl_congr_fun _ _ xs (fun r x => ?_) a
        simp [basicStep]
  · intro a
    simp [basicMaths, basicLoop, basicStep]

/-! ## C6: resolveValue over option lists -/

theorem find_by_label (opts : List ChoiceOpt) (hd : optsDistinct opts)
    (o : ChoiceOpt) (ho : o ∈ opts) :
    opts.find? (fun p => p.label = o.label || p.value = o.label) = some o := by
  induction opts with
  | nil => cases ho
  | cons p ps ih =>
    rcases List.mem_cons.1 ho with h | h
    · subst h
      exact List.find?_cons_of_pos _ (by simp)
    · have hR := (List.pairwise_cons.1 hd).1 o h
      rw [List.find?_cons_of_neg _ (by simp [hR.1, hR.2.2.2])]
      exact ih (List.pairwise_cons.1 hd).2 h

theorem find_by_value (opts : List ChoiceOpt) (hd : optsDistinct opts)
    (o : ChoiceOpt) (ho : o ∈ opts) :
    opts.find? (fun p => p.label = o.value || p.value = o.value) = some o := by
  induction opts with
  | nil => cases ho
  | cons p ps ih =>
    rcases List.mem_cons.1 ho with h | h
    · subst h
      exact List.find?_cons_of_pos _ (by simp)
    · have hR := (List.pairwise_cons.1 hd).1 o h
      rw [List.find?_cons_of_neg _ (by simp [hR.2.1, hR.2.2.1])]
      exact ih (List.pairwise_cons.1 hd).2 h

/-- C6 counterexample: with options `[{A,B}, {B,C}]`, resolving the
second option's label `"B"` hits the first option (whose value is
`"B"`) and so does not return the second option's value `"C"`. -/
theorem resolveValue_counterexample :
    dupOptionsField.options = some [⟨"A", "B"⟩, ⟨"B", "C"⟩] ∧
    (⟨"B", "C"⟩ : ChoiceOpt) ∈ [(⟨"A", "B"⟩ : ChoiceOpt), ⟨"B", "C"⟩] ∧
    resolveValue dupOptionsField (.prim (.str "B")) = .prim (.str "B") ∧
    resolveValue dupOptionsField (.prim (.str "B")) ≠ .prim (.str "C") := by
  refine ⟨rfl, by decide, ?_, ?_⟩ <;> decide

/-- C6 (amended): for every field whose options share no label or value
string across distinct options, resolving an option's label or value
returns that option's value; a string matching no option's label and no
option's value passes through unchanged. -/
theorem resolveValue_options (f : InputField) (opts : List ChoiceOpt)
    (hopts : f.options = some opts) (hd : optsDistinct opts) :
    (∀ o ∈ opts,
      resolveValue f (.prim (.str o.label)) = .prim (.str o.value) ∧
      resolveValue f (.prim (.str o.value)) = .prim (.str o.value)) ∧
    (∀ s : String, (∀ o ∈ opts, o.label ≠ s ∧ o.value ≠ s) →
      resolveValue f (.prim (.str s)) = .prim (.str s)) := by
  constructor
  · intro o ho
    constructor
    · simp only [resolveValue, hopts, find_by_label opts hd o ho]
    · simp only [resolveValue, hopts, find_by_value opts hd o ho]
  · intro s hs
    have hnone : opts.find? (fun p => p.label = s || p.value = s) = none := by
      rw [List.find?_eq_none]
      intro p hp
      simp [(hs p hp).1, (hs p hp).2]
    simp only [resolveValue, hopts, hnone]

/-- Witness for C6 (amended) at the label-resolution fixture of the
specification. -/
theorem resolveValue_options_witness :
    resolveValue
      { dupOptionsField with options := some [⟨"S3 Glacier", "s3Glacier"⟩] }
      (.prim (.str "S3 Glacier")) = .prim (.str "s3Glacier") :=
  ((resolveValue_options _ [⟨"S3 Glacier", "s3Glacier"⟩] rfl (by decide)).1
    ⟨"S3 Glacier", "s3Glacier"⟩ (by decide)).1

/-! ## C10: unknown region codes price as us-east-1 -/

/-- C10: `calculateServiceCost` resolves any region code outside the
fixed `REGION_NAMES` table to the pricing-table name
`"US East (N. Virginia)"` instead of failing. -/
theorem pricingRegionName_unknown (r : String)
    (h : REGION_NAMES.lookup r = none) :
    pricingRegionName r = "US East (N. Virginia)" := by
  simp [pricingRegionName, h]

/-- Witness for C10 at a misspelled region code. -/
theorem pricingRegionName_unknown_witness :
    REGION_NAMES.lookup "us-esat-1" = none ∧
    pricingRegionName "us-esat-1" = "US East (N. Virginia)" :=
  ⟨by decide, pricingRegionName_unknown "us-esat-1" (by decide)⟩

/-! ## C5: user merge agrees with the defaults outside the user keys -/

theorem lookup_updAssoc_ne {α : Type} (l : List (String × α)) (k kw : String)
    (v : α) (h : k ≠ kw) : (updAssoc l kw v).lookup k = l.lookup k := by
  have hb : (k == kw) = false := beq_eq_false_iff_ne.2 h
  induction l with
  | nil => simp [updAssoc, List.lookup, hb]
  | cons e es ih =>
    by_cases he : e.1 = kw
    · rw [updAssoc, if_pos he]
      have hke : (k == e.1) = false := beq_eq_false_iff_ne.2 (fun hk => h (hk ▸ he))
      simp [List.lookup, hb, hke]
    · rw [updAssoc, if_neg he]
      by_cases hke : k = e.1
      · subst hke
        simp [List.lookup]
      · have hke' : (k == e.1) = false := beq_eq_false_iff_ne.2 hke
        simp [List.lookup, hke', ih]

theorem overlay_lookup_ne (im : List (String × InputField))
    (user : List (String × UserVal)) (k : String)
    (hk : ∀ e ∈ user, e.1 ≠ k) :
    ∀ m : List (String × CCVal),
      (user.foldl (fun m e => updAssoc m e.1 (userEntryVal (im.lookup e.1) e.2)) m).lookup k
        = m.lookup k := by
  induction user with
  | nil => intro m; rfl
  | cons e es ih =>
    intro m
    rw [List.foldl_cons, ih (fun u hu => hk u (List.mem_cons_of_mem e hu)),
      lookup_updAssoc_ne _ _ _ _ (Ne.symm (hk e (List.mem_cons_self e es)))]

/-- C5: for any non-empty user-input list and any key the user does not
set, the merged `buildCalcComponents` result agrees with the
defaults-only result at that key (both present with the same value, or
both absent). -/
theorem buildCalcComponents_superset (inputs : List InputField)
    (user : List (String × UserVal)) (k : String)
    (hne : user ≠ []) (hk : ∀ e ∈ user, e.1 ≠ k) :
    (buildCalcComponents inputs user).lookup k
      = (buildCalcComponents inputs []).lookup k := by
  rw [buildCalcComponents, if_neg hne, buildCalcComponents, if_pos rfl]
  exact overlay_lookup_ne (inputMapOf inputs) user k hk (seedDefaults inputs)

/-- Witness for C5: a user that sets only field `a` leaves field `b` at
its default. -/
theorem buildCalcComponents_superset_witness :
    (buildCalcComponents demoInputs demoUser).lookup "b"
      = (buildCalcComponents demoInputs []).lookup "b" :=
  buildCalcComponents_superset demoInputs demoUser "b" (by decide) (by decide)

/-! ## C4: estimate totals and sub-service costs -/

theorem mkSubEntry_cost (region : String) (sub : SubRef) :
    (mkSubEntry region sub).serviceCost = ⟨0, 0⟩ := by
  cases h : sub.fetch <;> simp [mkSubEntry, h]

theorem buildServiceEntry_subCost (svc : SvcInput) (r : SvcRemote) :
    ∀ subs, (buildServiceEntry svc r).subServices = some subs →
      ∀ s ∈ subs, s.serviceCost = ⟨0, 0⟩ := by
  intro subs hsubs s hs
  rcases hfd : r.defFetch with ⟨ver, ef, dc, tmpl, inputs, subrefs⟩ | _
  · rw [buildServiceEntry, hfd] at hsubs
    by_cases hempty : subrefs = []
    · simp [hempty] at hsubs
    · simp only [if_neg hempty, Option.some.injEq] at hsubs
      subst hsubs
      obtain ⟨sub, _, hsub⟩ := List.mem_map.1 hs
      rw [← hsub]
      exact mkSubEntry_cost _ _
  · rw [buildServiceEntry, hfd] at hsubs
    cases hsubs

theorem createStep_fold (items : List (SvcInput × SvcRemote)) :
    ∀ acc : List (String × ServiceEntry) × ℚ × ℚ,
      (items.foldl createStep acc).1
        = acc.1 ++ items.map
            (fun it => (it.1.serviceCode ++ "-" ++ it.2.uuid, buildServiceEntry it.1 it.2)) ∧
      (items.foldl createStep acc).2.1
        = acc.2.1 + (items.map (fun it => (buildServiceEntry it.1 it.2).serviceCost.monthly)).sum ∧
      (items.foldl createStep acc).2.2
        = acc.2.2 + (items.map (fun it => (buildServiceEntry it.1 it.2).serviceCost.upfront)).sum := by
  induction items with
  | nil => intro acc; simp
  | cons it its ih =>
    intro acc
    rw [List.foldl_cons]
    refine ⟨?_, ?_, ?_⟩
    · rw [(ih _).1]; simp [createStep]
    · rw [(ih _).2.1]; simp [createStep]; ring
    · rw [(ih _).2.2]; simp [createStep]; ring

/-- C4: in every assembled estimate document, `totalCost` equals
`groupSubtotal`, both equal the componentwise sum of `serviceCost` over
the top-level services, and every attached sub-service record carries
`serviceCost = {monthly: 0, upfront: 0}`. -/
theorem create_estimate_invariants (name : String)
    (items : List (SvcInput × SvcRemote)) :
    (createEstimatePayload name items).totalCost
        = (createEstimatePayload name items).groupSubtotal ∧
    (createEstimatePayload name items).totalCost.monthly
        = ((createEstimatePayload name items).services.map
            (fun e => e.2.serviceCost.monthly)).sum ∧
    (createEstimatePayload name items).totalCost.upfront
        = ((createEstimatePayload name items).services.map
            (fun e => e.2.serviceCost.upfront)).sum ∧
    ∀ e ∈ (createEstimatePayload name items).services, ∀ subs,
      e.2.subServices = some subs → ∀ s ∈ subs, s.serviceCost = ⟨0, 0⟩ := by
  obtain ⟨h1, h2, h3⟩ := createStep_fold items ([], 0, 0)
  have hserv : (createEstimatePayload name items).services
      = items.map (fun it => (it.1.serviceCode ++ "-" ++ it.2.uuid, buildServiceEntry it.1 it.2)) := by
    show (items.foldl createStep ([], 0, 0)).1 = _
    rw [h1]; rfl
  refine ⟨rfl, ?_, ?_, ?_⟩
  · show (items.foldl createStep ([], 0, 0)).2.1 = _
    rw [h2, hserv]
    simp only [zero_add, List.map_map]
    rfl
  · show (items.foldl createStep ([], 0, 0)).2.2 = _
    rw [h3, hserv]
    simp only [zero_add, List.map_map]
    rfl
  · intro e he subs hsubs s hs
    have he' : e ∈ items.map
        (fun it => (it.1.serviceCode ++ "-" ++ it.2.uuid, buildServiceEntry it.1 it.2)) := by
      rwa [hserv] at he
    obtain ⟨it, _, hit⟩ := List.mem_map.1 he'
    have : e.2 = buildServiceEntry it.1 it.2 := by rw [← hit]
    rw [this] at hsubs
    exact buildServiceEntry_subCost it.1 it.2 subs hsubs s hs

/-! ## C7: save / retry protocol -/

theorem finishSave_not_saveError (resp : SaveResp) (w : List String) :
    isSaveErrorOutcome (finishSave resp w) = false := by
  unfold finishSave
  split
  · rfl
  · split
    · rfl
    · split
      · rfl
      · split
        · rfl
        · split <;> rfl

theorem stripPayload_clears (p : Payload) :
    ∀ e ∈ (stripPayload p).services,
      e.2.calculationComponents = [] ∧
      ∀ subs, e.2.subServices = some subs → ∀ s ∈ subs, s.calculationComponents = [] := by
  intro e he
  obtain ⟨e0, _, he0⟩ := List.mem_map.1 he
  refine ⟨?_, ?_⟩
  · rw [← he0]
  · intro subs hsubs s hs
    rw [← he0] at hsubs
    rcases h0 : e0.2.subServices with _ | subs0
    · rw [h0] at hsubs; cases hsubs
    · rw [h0] at hsubs
      injection hsubs with hsubs
      subst hsubs
      obtain ⟨s0, _, hs0⟩ := List.mem_map.1 hs
      rw [← hs0]

/-- C7 counterexample: a failed first POST followed by a 2xx retry whose
body is not the expected `{statusCode: 201, body}` shape ends in a
shape error, not in a returned shareable link. -/
theorem savePhase_retry_counterexample :
    malformedOkResp.ok = true ∧
    isSuccessOutcome (savePhase demoPayload failResp malformedOkResp).outcome = false := by
  constructor
  · rfl
  · rfl

/-- C7 (amended): `create_estimate` issues at most two save POSTs; a 2xx
first response means no retry; a non-2xx first response strips
`calculationComponents` everywhere, records the services whose
components were non-empty, and retries exactly once with the stripped
payload; the error carrying both status lines and bodies is thrown
exactly when both POSTs fail; and when the retry succeeds with a
well-formed 201/savedKey body, the result is the shareable link plus
the warnings naming the stripped services and the truncated original
error body. -/
theorem savePhase_protocol (p : Payload) (r1 r2 : SaveResp) :
    (savePhase p r1 r2).posts.length ≤ 2 ∧
    (r1.ok = true → (savePhase p r1 r2).posts = [p]) ∧
    (r1.ok = false →
      (savePhase p r1 r2).posts = [p, stripPayload p] ∧
      (∀ e ∈ (stripPayload p).services,
        e.2.calculationComponents = [] ∧
        ∀ subs, e.2.subServices = some subs → ∀ s ∈ subs, s.calculationComponents = []) ∧
      strippedNames p
        = (p.services.filter (fun e => e.2.calculationComponents ≠ [])).map
            (fun e => e.2.serviceName)) ∧
    ((∃ s1 st1 b1 s2 b2, (savePhase p r1 r2).outcome = .saveError s1 st1 b1 s2 b2)
      ↔ (r1.ok = false ∧ r2.ok = false)) ∧
    (r1.ok = false → r2.ok = true → wellFormedSave r2 = true →
      (savePhase p r1 r2).outcome
        = .success ("https://calculator.aws/#/estimate?id=" ++ savedKeyOf r2)
            (saveWarnings r1.status r1.text (strippedNames p))) := by
  refine ⟨?_, ?_, ?_, ?_, ?_⟩
  · unfold savePhase
    split_ifs <;> simp
  · intro h1
    simp [savePhase, h1]
  · intro h1
    refine ⟨?_, stripPayload_clears p, rfl⟩
    unfold savePhase
    rw [if_neg (by simp [h1])]
    split_ifs <;> rfl
  · constructor
    · rintro ⟨s1, st1, b1, s2, b2, hout⟩
      by_cases h1 : r1.ok
      · rw [savePhase, if_pos h1] at hout
        have := congrArg isSaveErrorOutcome hout
        rw [finishSave_not_saveError] at this
        cases this
      · by_cases h2 : r2.ok
        · rw [savePhase, if_neg h1] at hout
          simp only [h2, if_true] at hout
          have := congrArg isSaveErrorOutcome hout
          rw [finishSave_not_saveError] at this
          cases this
        · exact ⟨by simpa using h1, by simpa using h2⟩
    · rintro ⟨h1, h2⟩
      refine ⟨r1.status, r1.statusText, r1.text, r2.status, r2.text, ?_⟩
      unfold savePhase
      rw [if_neg (by simp [h1]), if_neg (by simp [h2])]
  · intro h1 h2 hwf
    unfold savePhase
    rw [if_neg (by simp [h1]), if_pos h2]
    show finishSave r2 _ = _
    rcases hp : r2.parsed with _ | pt
    · simp [wellFormedSave, hp] at hwf
    · rcases hb : pt.bodyObj with _ | b
      · simp [wellFormedSave, hp, hb] at hwf
      · rcases hk : b.savedKey with _ | k
        · simp [wellFormedSave, hp, hb, hk] at hwf
        · simp only [wellFormedSave, hp, hb, hk, Bool.and_eq_true, beq_iff_eq,
            bne_iff_ne, ne_eq] at hwf
          obtain ⟨⟨hsc, hbody⟩, hkne⟩ := hwf
          simp [finishSave, hp, hb, hk, savedKeyOf, hsc, hbody, hkne]

/-- Witness for C7 (amended) at the concrete demo payload, a failing
first response and a well-formed retry response. -/
theorem savePhase_protocol_witness :
    (savePhase demoPayload failResp goodResp).outcome
      = .success ("https://calculator.aws/#/estimate?id=" ++ savedKeyOf goodResp)
          (saveWarnings failResp.status failResp.text (strippedNames demoPayload)) :=
  (savePhase_protocol demoPayload failResp goodResp).2.2.2.2 rfl rfl (by decide)

/-- Witness for C4 at a one-service estimate with one sub-service. -/
theorem create_estimate_invariants_witness :
    (createEstimatePayload "demo" [(demoSvcInput, demoRemote)]).totalCost.monthly
      = ((createEstimatePayload "demo" [(demoSvcInput, demoRemote)]).services.map
          (fun e => e.2.serviceCost.monthly)).sum ∧
    (mkSubEntry "us-east-1" ⟨"s3Sub", SubDefFetch.failed⟩).serviceCost = ⟨0, 0⟩ :=
  ⟨(create_estimate_invariants "demo" [(demoSvcInput, demoRemote)]).2.1,
   (create_estimate_invariants "demo" [(demoSvcInput, demoRemote)]).2.2.2
     ("amazonS3-u1", buildServiceEntry demoSvcInput demoRemote) (by decide)
     [mkSubEntry "us-east-1" ⟨"s3Sub", SubDefFetch.failed⟩] (by decide)
     (mkSubEntry "us-east-1" ⟨"s3Sub", SubDefFetch.failed⟩) (by decide)⟩

/-! ## C8: search_services -/

/-- C8: `search_services` returns exactly the first at-most-15 manifest
services, in manifest order, whose lowercased haystack (name, service
code, space-joined keywords) contains the lowercased query, projected
to `{trimmed name, serviceCode, slug, region count}`; the result never
exceeds 15 entries, every result arises from a matching manifest
service, and the match is case-insensitive in the query. -/
theorem search_services_spec (manifest : List ManifestService) (query : String) :
    search_services manifest query
      = ((manifest.filter (fun s =>
            hasInfix (serviceHaystack s).toList (lowerStr query).toList)).take 15).map
          searchProject ∧
    (search_services manifest query).length ≤ 15 ∧
    (∀ r ∈ search_services manifest query, ∃ s,
        s ∈ manifest ∧ searchMatches query s = true ∧ r = searchProject s) ∧
    (∀ q2 : String, lowerStr q2 = lowerStr query →
        search_services manifest q2 = search_services manifest query) := by
  refine ⟨rfl, ?_, ?_, ?_⟩
  · rw [search_services, List.length_map]
    exact List.length_take_le 15 _
  · intro r hr
    rw [search_services] at hr
    obtain ⟨s, hs, hps⟩ := List.mem_map.1 hr
    have hs' := List.mem_of_mem_take hs
    exact ⟨s, (List.mem_filter.1 hs').1, (List.mem_filter.1 hs').2, hps.symm⟩
  · intro q2 h
    have hfn : searchMatches q2 = searchMatches query := by
      funext s
      rw [searchMatches, searchMatches, h]
    rw [search_services, search_services, hfn]

/-- Witness for C8: the demo manifest searched with `"EC2"`. -/
theorem search_services_spec_witness :
    (search_services demoManifest "EC2").length ≤ 15 ∧
    search_services demoManifest "EC2" = search_services demoManifest "ec2" :=
  ⟨(search_services_spec demoManifest "EC2").2.1,
   (search_services_spec demoManifest "ec2").2.2.2 "EC2" (by decide)⟩

/-! ## C9: load_estimate id extraction -/

theorem takeWhile_all_idChar (l : List Char) (h : ∀ c ∈ l, idChar c = true) :
    l.takeWhile idChar = l := by
  induction l with
  | nil => rfl
  | cons c cs ih =>
    rw [List.takeWhile_cons, if_pos (h c (List.mem_cons_self c cs))]
    rw [ih (fun x hx => h x (List.mem_cons_of_mem c hx))]

theorem findIdMatch_no_eq (l : List Char) (h : ('=' : Char) ∉ l) :
    findIdMatch l = none := by
  induction l with
  | nil => rfl
  | cons c cs ih =>
    have hcond : ¬(c = 'i' ∧ cs.take 2 = ['d', '=']) := by
      rintro ⟨_, h2⟩
      have hm : ('=' : Char) ∈ cs.take 2 := by rw [h2]; simp
      exact h (List.mem_cons_of_mem c (List.mem_of_mem_take hm))
    rw [findIdMatch, if_neg hcond]
    exact ih (fun hm => h (List.mem_cons_of_mem c hm))

/-- C9: for every non-empty token over `[A-Za-z0-9-]`, the id
extraction of `load_estimate` returns the token unchanged when given
the bare token (no `id=` occurs in it), and extracts exactly the token
from the shareable-link URL ending in `#/estimate?id=` followed by the
token. -/
theorem extractEstimateId_token (t : List Char) (hne : t ≠ [])
    (hall : ∀ c ∈ t, idChar c = true) :
    extractEstimateId t = t ∧
    extractEstimateId ("https://calculator.aws/#/estimate?id=".toList ++ t) = t := by
  constructor
  · have hnoeq : ('=' : Char) ∉ t := by
      intro hm
      have := hall '=' hm
      simp [idChar] at this
    rw [extractEstimateId, findIdMatch_no_eq t hnoeq]
    rfl
  · have htw : t.takeWhile idChar = t := takeWhile_all_idChar t hall
    rw [extractEstimateId]
    have : findIdMatch ("https://calculator.aws/#/estimate?id=".toList ++ t) = some t := by
      simp [findIdMatch, htw, hne]
    rw [this]
    rfl

/-- Witness for C9 at the token `abc-123`. -/
theorem extractEstimateId_token_witness :
    extractEstimateId "abc-123".toList = "abc-123".toList ∧
    extractEstimateId
        ("https://calculator.aws/#/estimate?id=".toList ++ "abc-123".toList)
      = "abc-123".toList :=
  extractEstimateId_token "abc-123".toList (by decide) (by decide)

end AwsCalc
